import Mathlib

/-!
Verification development for the ETF research hub's comparison and
normalization core (`comparison_utils.py`, `etf_data_service.py`).

Modelling conventions:
* Python floats are modelled as exact rationals (`ℚ`); binary floating-point
  artifacts and IEEE special values are outside the model.
* Python `round(x, n)` (banker's rounding on binary doubles) is modelled by
  `roundTo n`, which rounds half away from the midpoint upward; all concrete
  values used in theorems avoid ties, where the two rules agree.
* Python dictionaries with optional fields become structures with `Option`
  fields; the dynamic values that can hold `None`, a number or a string
  (`aum`, the raw inputs of `_safe_float`) become the inductive `RawValue`.
* Code that can raise (`compare_aum`'s division) returns `Except Unit`.
* Python's `float(str)` builtin is modelled by `pyFloatChars` on the plain
  decimal forms (sign, digits, one optional dot); exponents and `inf`/`nan`
  literals do not occur in the data handled by this program.
-/

namespace EtfHub

/-- Dynamic Python value: `None`, a number, or a string. -/
inductive RawValue
| null
| num (q : ℚ)
| str (s : String)
deriving DecidableEq, Repr

/-- One holding row, as produced by the data service (`dict` per holding).
Absent keys are `none`. -/
structure Holding where
  ticker : Option String
  company_name : Option String
  sector : Option String
  weight : Option ℚ
deriving DecidableEq, Repr

/-- Canonical ETF record as consumed by `ComparisonUtils` (only the fields
the comparison engine reads). -/
structure ETFData where
  symbol : Option String
  expense_ratio : Option ℚ
  aum : RawValue
  holdings : List Holding
  sector_allocation : List (String × ℚ)
deriving DecidableEq, Repr

/-- Python `round(q, n)`: scale by `10^n`, round to an integer, scale back. -/
def roundTo (n : ℕ) (q : ℚ) : ℚ :=
  ((round (q * 10 ^ n) : ℤ) : ℚ) / 10 ^ n

/-- Uppercase a string, as `str.upper()` does for ASCII tickers. -/
def upperStr (s : String) : String :=
  ⟨s.data.map Char.toUpper⟩

/-- Python `str.strip()`: drop whitespace from both ends. -/
def trimChars (l : List Char) : List Char :=
  ((l.dropWhile Char.isWhitespace).reverse.dropWhile Char.isWhitespace).reverse

/-- The cleaning step of `_parse_aum`:
`aum_value.replace('$', '').replace(',', '').strip()`. -/
def cleanChars (l : List Char) : List Char :=
  trimChars (l.filter (fun c => c ≠ '$' && c ≠ ','))

/-- Numeric value of a digit string (most significant first). -/
def digitsToNat (l : List Char) : ℕ :=
  l.foldl (fun n c => 10 * n + (c.toNat - 48)) 0

/-- Model of Python's `float(str)` on plain decimal literals:
optional sign, then digits with at most one decimal point
(`"1."` and `".5"` are accepted, `""`, `"."`, `"1..2"` are not). -/
def pyFloatChars (l : List Char) : Option ℚ :=
  let core : List Char → Option ℚ := fun rest =>
    match rest.splitOn '.' with
    | [ip] =>
        if ip ≠ [] && ip.all Char.isDigit then some (digitsToNat ip) else none
    | [ip, fp] =>
        if (ip ≠ [] || fp ≠ []) && ip.all Char.isDigit && fp.all Char.isDigit then
          some ((digitsToNat ip : ℚ) + (digitsToNat fp : ℚ) / 10 ^ fp.length)
        else none
    | _ => none
  match l with
  | '-' :: rest => (core rest).map (fun q => -q)
  | '+' :: rest => core rest
  | rest => core rest

/-- Python `float(s)` for a whole string. -/
def pyFloat (s : String) : Option ℚ :=
  pyFloatChars s.data

/-- Suffix handling of `_parse_aum` on the cleaned character list: a trailing
`B`/`M`/`K` (case-insensitively) scales the remaining text by 1e9/1e6/1e3. -/
def aumFromClean (clean : List Char) : Option ℚ :=
  let upper := clean.map Char.toUpper
  if upper.getLast? = some 'B' then
    (pyFloatChars clean.dropLast).map (fun q => q * 1000000000)
  else if upper.getLast? = some 'M' then
    (pyFloatChars clean.dropLast).map (fun q => q * 1000000)
  else if upper.getLast? = some 'K' then
    (pyFloatChars clean.dropLast).map (fun q => q * 1000)
  else
    pyFloatChars clean

/-- `ComparisonUtils._parse_aum`: `None` and `'N/A'` give `None`; numbers pass
through; strings are cleaned, the unit suffix applied, and a failed float
parse yields `None` (the `ValueError` is caught). -/
def parse_aum : RawValue → Option ℚ
| .null => none
| .num q => some q
| .str s => if s = "N/A" then none else aumFromClean (cleanChars s.data)

/-- Whether the `ticker` column exists after `pd.DataFrame(holdings)`:
the column is present as soon as some row dict carries the key. -/
def hasTickerCol (hs : List Holding) : Bool :=
  hs.any (fun h => h.ticker.isSome)

/-- `set(df['ticker'].str.upper())` as a deduplicated list of per-row
values.  A row whose dict lacks the `ticker` key holds `np.nan` in the
DataFrame, `.str.upper()` keeps it NaN, and the Python set retains one NaN
element (every hole is the identical `np.nan` object, and set membership
short-circuits on identity).  `none` models that NaN element; `dedup`
collapses the holes to a single `none` exactly as the set does. -/
def tickerSet (hs : List Holding) : List (Option String) :=
  (hs.map (fun h => h.ticker.map upperStr)).dedup

/-- The genuine (non-NaN) tickers of a side. -/
def realTickers (hs : List Holding) : List String :=
  (tickerSet hs).filterMap id

/-- `set(...) & set(...)` on the upper-cased ticker sets, enumerated in the
(dedup'd) order of the first side; Python iterates the same set in
unspecified order.  The NaN element (`none`) is in the intersection as soon
as both sides contain a missing-ticker row. -/
def interTickerSet (h1 h2 : List Holding) : List (Option String) :=
  (tickerSet h1).filter (fun t => decide (t ∈ tickerSet h2))

/-- `set(...) | set(...)` on the two upper-cased ticker sets: every element
of the first side not already present is inserted. -/
def unionSets (l1 l2 : List (Option String)) : List (Option String) :=
  l1.foldr (fun a acc => if a ∈ acc then acc else a :: acc) l2

/-- `df[df['ticker'].str.upper() == ticker].iloc[0]`: the first holding whose
upper-cased ticker is `t` (a NaN row never equals a string, so it is
skipped). -/
def findFirstByTicker (hs : List Holding) (t : String) : Option Holding :=
  hs.find? (fun h => h.ticker.map upperStr = some t)

/-- Whether the `weight` column exists in `pd.DataFrame(hs)`. -/
def hasWeightCol (hs : List Holding) : Bool :=
  hs.any (fun h => h.weight.isSome)

/-- Whether the `company_name` column exists. -/
def hasCompanyCol (hs : List Holding) : Bool :=
  hs.any (fun h => h.company_name.isSome)

/-- Whether the `sector` column exists. -/
def hasSectorCol (hs : List Holding) : Bool :=
  hs.any (fun h => h.sector.isSome)

/-- `row.get(key, default)` on a pandas row `Series` for a numeric column:
the default applies only when the whole column is absent; a row-level hole
under an existing column is NaN (`none`). -/
def seriesGetQ (col : Bool) (v : Option ℚ) (d : ℚ) : Option ℚ :=
  if col then v else some d

/-- `row.get(key, default)` for a string column, same column-aware rule. -/
def seriesGetS (col : Bool) (v : Option String) (d : Option String) :
    Option String :=
  if col then v else d

/-- `abs(w1 - w2)` on floats that may be NaN: NaN propagates. -/
def nanAbsSub : Option ℚ → Option ℚ → Option ℚ
| some a, some b => some |a - b|
| _, _ => none

/-- One entry of the overlapping-holdings result; `none` in a field models
the NaN a row-level hole produces. -/
structure OverlapEntry where
  ticker : String
  company_name : Option String
  sector : Option String
  weight_etf1 : Option ℚ
  weight_etf2 : Option ℚ
  weight_difference : Option ℚ
deriving DecidableEq, Repr

/-- The `overlap_data` dict built for one intersecting real ticker: fields
come from the first matching holding on each side through the column-aware
`Series.get`.  (The `getD` fallback rows are never consulted: for a ticker
of the intersection both finds succeed; they only keep the function total.) -/
def mkOverlap (h1s h2s : List Holding) (t : String) : OverlapEntry :=
  let a := (findFirstByTicker h1s t).getD ⟨none, none, none, none⟩
  let b := (findFirstByTicker h2s t).getD ⟨none, none, none, none⟩
  let w1 := seriesGetQ (hasWeightCol h1s) a.weight 0
  let w2 := seriesGetQ (hasWeightCol h2s) b.weight 0
  { ticker := t
    company_name := seriesGetS (hasCompanyCol h1s) a.company_name
      (seriesGetS (hasCompanyCol h2s) b.company_name (some "N/A"))
    sector := seriesGetS (hasSectorCol h1s) a.sector
      (seriesGetS (hasSectorCol h2s) b.sector (some "N/A"))
    weight_etf1 := w1
    weight_etf2 := w2
    weight_difference := nanAbsSub w1 w2 }

/-- Python float `<=` lifted to possibly-NaN keys, with NaN ordered below
every number.  On NaN-free keys this is exactly the numeric order the
descending sort uses; with NaN keys Python's comparisons all return False
and the set iteration order is unspecified anyway, so the model fixes one
canonical arrangement with NaN entries ordered last. -/
def optLE : Option ℚ → Option ℚ → Prop
| none, _ => True
| some _, none => False
| some x, some y => x ≤ y

instance : DecidableRel optLE := fun x y =>
  match x, y with
  | none, _ => isTrue trivial
  | some _, none => isFalse (fun h => h)
  | some a, some b => inferInstanceAs (Decidable (a ≤ b))

theorem optLE_total (x y : Option ℚ) : optLE x y ∨ optLE y x := by
  cases x <;> cases y <;> simp [optLE]
  exact le_total _ _

theorem optLE_trans (x y z : Option ℚ) (h1 : optLE x y) (h2 : optLE y z) :
    optLE x z := by
  cases x <;> cases y <;> cases z <;> simp_all [optLE]
  exact le_trans h1 h2

/-- Descending order on `weight_difference` (the key of the final
`overlaps.sort(..., reverse=True)`). -/
def wdGE (a b : OverlapEntry) : Prop :=
  optLE b.weight_difference a.weight_difference

instance : DecidableRel wdGE :=
  fun a b => inferInstanceAs (Decidable (optLE b.weight_difference a.weight_difference))

instance : IsTotal OverlapEntry wdGE :=
  ⟨fun a b => optLE_total b.weight_difference a.weight_difference⟩

instance : IsTrans OverlapEntry wdGE :=
  ⟨fun a b c h1 h2 => optLE_trans c.weight_difference b.weight_difference
    a.weight_difference h2 h1⟩

/-- `ComparisonUtils.find_overlapping_holdings`.  When the NaN element is in
the ticker intersection (both sides contain a missing-ticker row), the loop
reaches it, `df[df['ticker'].str.upper() == nan]` selects nothing (NaN never
compares equal), and `.iloc[0]` raises `IndexError`: modelled by
`Except.error ()`.  Otherwise every intersecting real ticker produces one
entry and the sorted list is returned. -/
def find_overlapping_holdings (h1 h2 : List Holding) :
    Except Unit (List OverlapEntry) :=
  if h1.isEmpty || h2.isEmpty then .ok []
  else if !hasTickerCol h1 || !hasTickerCol h2 then .ok []
  else if (interTickerSet h1 h2).isEmpty then .ok []
  else if none ∈ interTickerSet h1 h2 then .error ()
  else .ok (List.insertionSort wdGE
    (((interTickerSet h1 h2).filterMap id).map (mkOverlap h1 h2)))

/-- `ComparisonUtils.calculate_portfolio_overlap`: the set sizes include the
NaN element missing-ticker rows contribute. -/
def calculate_portfolio_overlap (h1 h2 : List Holding) : ℚ :=
  if h1.isEmpty || h2.isEmpty then 0
  else if !hasTickerCol h1 || !hasTickerCol h2 then 0
  else
    let t1 := tickerSet h1
    let t2 := tickerSet h2
    let inter := t1.filter (fun t => decide (t ∈ t2))
    let union := unionSets t1 t2
    if union.isEmpty then 0
    else roundTo 2 ((inter.length : ℚ) / (union.length : ℚ) * 100)

/-- Sector map (`Dict[str, float]`) as an association list with unique keys
(a Python dict cannot repeat a key); lookup of an absent key defaults to 0. -/
def weightOf (s : List (String × ℚ)) (k : String) : ℚ :=
  ((s.find? (fun p => p.1 = k)).map Prod.snd).getD 0

/-- The union of the two key sets, `set(sector1.keys()) | set(sector2.keys())`,
enumerated as a deduplicated list. -/
def sectorKeys (s1 s2 : List (String × ℚ)) : List String :=
  (s1.map Prod.fst ++ s2.map Prod.fst).dedup

/-- Per-sector comparison record. -/
structure SectorEntry where
  etf1_weight : ℚ
  etf2_weight : ℚ
  difference : ℚ
  relative_difference : ℚ
deriving DecidableEq, Repr

/-- The per-sector dict: weights, absolute difference and the guarded
relative difference (`... if max(weight1, weight2) > 0 else 0`). -/
def sectorEntry (s1 s2 : List (String × ℚ)) (k : String) : SectorEntry :=
  let w1 := weightOf s1 k
  let w2 := weightOf s2 k
  let d := |w1 - w2|
  { etf1_weight := w1
    etf2_weight := w2
    difference := d
    relative_difference := if 0 < max w1 w2 then d / max (max w1 w2) 1 * 100 else 0 }

/-- Result of `compare_sector_allocations` in the non-empty case. -/
structure SectorResult where
  sector_comparison : List (String × SectorEntry)
  similarity_score : ℚ
  total_sectors : ℕ
  common_sectors : ℕ
deriving DecidableEq, Repr

/-- Total of `abs(weight1 - weight2)` over the sector union. -/
def totalSectorDiff (s1 s2 : List (String × ℚ)) : ℚ :=
  ((sectorKeys s1 s2).map (fun k => |weightOf s1 k - weightOf s2 k|)).sum

/-- `ComparisonUtils.compare_sector_allocations`; `none` models the empty
dict returned when both inputs are empty. -/
def compare_sector_allocations (s1 s2 : List (String × ℚ)) : Option SectorResult :=
  if s1.isEmpty && s2.isEmpty then none
  else
    let keys := sectorKeys s1 s2
    some
      { sector_comparison := keys.map (fun k => (k, sectorEntry s1 s2 k))
        similarity_score :=
          roundTo 2 (max 0 (100 -
            (if keys.isEmpty then 0 else totalSectorDiff s1 s2 / (keys.length : ℚ))))
        total_sectors := keys.length
        common_sectors :=
          ((s1.map Prod.fst).dedup.filter
            (fun k => decide (k ∈ s2.map Prod.fst))).length }

/-- Result of `compare_expense_ratios`. -/
structure ExpenseComparison where
  etf1_expense_ratio : Option ℚ
  etf2_expense_ratio : Option ℚ
  difference : Option ℚ
  cheaper_etf : Option String
  savings_basis_points : Option ℚ
deriving DecidableEq, Repr

/-- `ComparisonUtils.compare_expense_ratios`: all-null when either ratio is
`None`, otherwise the rounded absolute difference; the cheaper symbol comes
from `etf1 if expense1 < expense2 else etf2`, so an exact tie yields etf2. -/
def compare_expense_ratios (e1 e2 : ETFData) : ExpenseComparison :=
  match e1.expense_ratio, e2.expense_ratio with
  | some x, some y =>
      { etf1_expense_ratio := some x
        etf2_expense_ratio := some y
        difference := some (roundTo 4 |x - y|)
        cheaper_etf := if x < y then e1.symbol else e2.symbol
        savings_basis_points := some (roundTo 2 (|x - y| * 100)) }
  | ex, ey =>
      { etf1_expense_ratio := ex
        etf2_expense_ratio := ey
        difference := none
        cheaper_etf := none
        savings_basis_points := none }

/-- Result of `compare_aum` (numeric fields only populated on success). -/
structure AumComparison where
  etf1_aum : RawValue
  etf2_aum : RawValue
  etf1_aum_numeric : Option ℚ
  etf2_aum_numeric : Option ℚ
  larger_etf : Option String
  size_ratio : Option ℚ
deriving DecidableEq, Repr

/-- `ComparisonUtils.compare_aum`. When both AUM fields parse, Python runs
`size_ratio = max/min`, which raises `ZeroDivisionError` whenever the smaller
parsed value is `0`; that exception is modelled by `Except.error ()`. -/
def compare_aum (e1 e2 : ETFData) : Except Unit AumComparison :=
  match parse_aum e1.aum, parse_aum e2.aum with
  | some x, some y =>
      if min x y = 0 then .error ()
      else .ok
        { etf1_aum := e1.aum
          etf2_aum := e2.aum
          etf1_aum_numeric := some x
          etf2_aum_numeric := some y
          larger_etf := if y < x then e1.symbol else e2.symbol
          size_ratio := some (roundTo 2 (max x y / min x y)) }
  | _, _ =>
      .ok
        { etf1_aum := e1.aum
          etf2_aum := e2.aum
          etf1_aum_numeric := none
          etf2_aum_numeric := none
          larger_etf := none
          size_ratio := none }

/-- The comprehensive summary dict of `generate_comparison_summary`. -/
structure ComparisonSummary where
  etf1_symbol : String
  etf2_symbol : String
  portfolio_overlap : ℚ
  sector_comparison : Option SectorResult
  expense_ratio_comparison : ExpenseComparison
  aum_comparison : AumComparison
  overlapping_holdings : List OverlapEntry
deriving DecidableEq, Repr

/-- `ComparisonUtils.generate_comparison_summary`; the summary dict's
values are evaluated in source order, so a `ZeroDivisionError` from
`compare_aum` propagates first, then an `IndexError` from
`find_overlapping_holdings`; either exception escapes to the caller. -/
def generate_comparison_summary (e1 e2 : ETFData) : Except Unit ComparisonSummary :=
  match compare_aum e1 e2 with
  | .error e => .error e
  | .ok aumC =>
      match find_overlapping_holdings e1.holdings e2.holdings with
      | .error e => .error e
      | .ok overlaps =>
          .ok
            { etf1_symbol := e1.symbol.getD "N/A"
              etf2_symbol := e2.symbol.getD "N/A"
              portfolio_overlap :=
                calculate_portfolio_overlap e1.holdings e2.holdings
              sector_comparison :=
                compare_sector_allocations e1.sector_allocation e2.sector_allocation
              expense_ratio_comparison := compare_expense_ratios e1 e2
              aum_comparison := aumC
              overlapping_holdings := overlaps }

/-- Python truthiness of the raw values `_safe_float` receives. -/
def truthy : RawValue → Bool
| .null => false
| .num q => decide (q ≠ 0)
| .str s => decide (s ≠ "")

/-- `ETFDataService._safe_float`: the guard `if value and value != 'None'`
skips every falsy input (including the number 0), a trailing `%` is stripped
from strings, and a failed `float()` is caught, all yielding `None`. -/
def safe_float (v : RawValue) : Option ℚ :=
  if truthy v && v ≠ .str "None" then
    match v with
    | .num q => some q
    | .str s =>
        if s.data.getLast? = some '%' then pyFloatChars s.data.dropLast
        else pyFloatChars s.data
    | .null => none
  else none

/-- Render a rational with two decimal places, as the f-string `:.2f` does. -/
def fmt2 (q : ℚ) : String :=
  let n : ℤ := round (q * 100)
  let m : ℕ := n.natAbs
  (if n < 0 then "-" else "") ++ toString (m / 100) ++ "." ++
    (if m % 100 < 10 then "0" ++ toString (m % 100) else toString (m % 100))

/-- The scale dispatch of `_format_aum` on a numeric total. -/
def fmtScaled (q : ℚ) : String :=
  if 1000000000 ≤ q then "$" ++ fmt2 (q / 1000000000) ++ "B"
  else if 1000000 ≤ q then "$" ++ fmt2 (q / 1000000) ++ "M"
  else if 1000 ≤ q then "$" ++ fmt2 (q / 1000) ++ "K"
  else "$" ++ fmt2 q

/-- `ETFDataService._format_aum`: `None` renders as `'N/A'`; a value that
`float()` accepts is scaled and formatted; anything else falls back to
`str(aum_value)` via the bare `except`. -/
def format_aum : RawValue → String
| .null => "N/A"
| .num q => fmtScaled q
| .str s => match pyFloat s with
    | some q => fmtScaled q
    | none => s

/-- Maximum of a price series (`hist['High'].max()`); 0 on an empty list,
which `_calculate_performance_metrics` never queries. -/
def listMax : List ℚ → ℚ
| [] => 0
| x :: xs => xs.foldl max x

/-- Projection used to observe `compare_aum` results. -/
def aumLarger : Except Unit AumComparison → Option (Option String)
| .ok r => some r.larger_etf
| .error _ => none

/-- ETF record with a 5% expense ratio and symbol `A`. -/
def tieE1 : ETFData :=
  { symbol := some "A", expense_ratio := some (1/20), aum := .null,
    holdings := [], sector_allocation := [] }

/-- ETF record with the same 5% expense ratio and symbol `B`. -/
def tieE2 : ETFData :=
  { symbol := some "B", expense_ratio := some (1/20), aum := .null,
    holdings := [], sector_allocation := [] }

/-- ETF record with a 0.03 expense ratio (the spec's worked example). -/
def exE1 : ETFData :=
  { symbol := some "A", expense_ratio := some (3/100), aum := .null,
    holdings := [], sector_allocation := [] }

/-- ETF record with a 0.07 expense ratio (the spec's worked example). -/
def exE2 : ETFData :=
  { symbol := some "B", expense_ratio := some (7/100), aum := .null,
    holdings := [], sector_allocation := [] }

/-- ETF record whose `aum` field parses to the number 0. -/
def zeroAumEtf : ETFData :=
  { symbol := some "A", expense_ratio := none, aum := .num 0,
    holdings := [], sector_allocation := [] }

/-- ETF record with a benign `$5B` AUM string. -/
def okAumEtf : ETFData :=
  { symbol := some "B", expense_ratio := none, aum := .str "$5B",
    holdings := [], sector_allocation := [] }

/-- ETF record with AUM `$5B` and symbol `A`. -/
def aumTie1 : ETFData :=
  { symbol := some "A", expense_ratio := none, aum := .str "$5B",
    holdings := [], sector_allocation := [] }

/-- ETF record with the same `$5B` AUM and symbol `B`. -/
def aumTie2 : ETFData :=
  { symbol := some "B", expense_ratio := none, aum := .str "$5B",
    holdings := [], sector_allocation := [] }

/-- ETF record with AUM `$10B` and symbol `A` (the spec's worked example). -/
def aumBig : ETFData :=
  { symbol := some "A", expense_ratio := none, aum := .str "$10B",
    holdings := [], sector_allocation := [] }

/-- Holdings of the spec's worked overlap example, first side. -/
def exH1 : List Holding :=
  [⟨some "AAPL", none, none, some 7⟩, ⟨some "MSFT", none, none, some 6⟩]

/-- Holdings of the spec's worked overlap example, second side. -/
def exH2 : List Holding :=
  [⟨some "AAPL", none, none, some 5⟩, ⟨some "GOOG", none, none, some 4⟩]

/-- A one-sector allocation map. -/
def exSectors : List (String × ℚ) :=
  [("Technology", 65)]

/-- Holdings list with a ticker column but one missing-ticker row. -/
def exNan1 : List Holding :=
  [⟨some "AAPL", none, none, none⟩, ⟨none, none, none, none⟩]

/-- Holdings list with a single clean AAPL row. -/
def exNan2 : List Holding :=
  [⟨some "AAPL", none, none, none⟩]

/-- Mixed holdings (ticker column plus a missing-ticker row), first side. -/
def exMixed1 : List Holding :=
  [⟨some "AAPL", none, none, some 7⟩, ⟨none, none, none, some 6⟩]

/-- Mixed holdings (ticker column plus a missing-ticker row), second side. -/
def exMixed2 : List Holding :=
  [⟨some "AAPL", none, none, some 5⟩, ⟨none, none, none, some 4⟩]

/-- Holdings whose weight column exists but whose AAPL row lacks a weight. -/
def exNanW1 : List Holding :=
  [⟨some "AAPL", none, none, none⟩, ⟨some "MSFT", none, none, some 6⟩]

/-- Holdings with a clean weighted AAPL row. -/
def exNanW2 : List Holding :=
  [⟨some "AAPL", none, none, some 5⟩]

theorem roundTo_intCast (n : ℕ) (z : ℤ) : roundTo n (z : ℚ) = z := by
  unfold roundTo
  rw [show ((z : ℚ) * 10 ^ n) = ((z * 10 ^ n : ℤ) : ℚ) by push_cast; ring,
    round_intCast]
  push_cast
  field_simp

theorem roundTo_mono {n : ℕ} {a b : ℚ} (h : a ≤ b) : roundTo n a ≤ roundTo n b := by
  unfold roundTo
  have hr : round (a * 10 ^ n) ≤ round (b * 10 ^ n) := by
    rw [round_eq, round_eq]
    refine Int.floor_mono ?_
    have hm := mul_le_mul_of_nonneg_right h (by positivity : (0:ℚ) ≤ 10 ^ n)
    linarith
  gcongr


theorem roundTo_double (d : ℚ) :
    roundTo 2 (roundTo 4 d * 100) = roundTo 2 (d * 100) := by
  unfold roundTo
  rw [show ((round (d * 10 ^ 4) : ℤ) : ℚ) / 10 ^ 4 * 100 * 10 ^ 2 =
      ((round (d * 10 ^ 4) : ℤ) : ℚ) by ring,
    round_intCast,
    show d * 100 * 10 ^ 2 = d * 10 ^ 4 by ring]

theorem parse_aum_str (s : String) (h : ¬ s = "N/A") :
    parse_aum (.str s) = aumFromClean (cleanChars s.data) := by
  simp [parse_aum, h]

theorem parse_aum_5B : parse_aum (.str "$5B") = some 5000000000 := by
  rw [parse_aum_str _ (by decide),
    show cleanChars "$5B".data = ['5', 'B'] from by decide]
  simp [aumFromClean, pyFloatChars,
    show (['5', 'B'].map Char.toUpper).getLast? = some 'B' from by decide,
    show List.dropLast ['5', 'B'] = ['5'] from by decide,
    show List.splitOn '.' ['5'] = [['5']] from by decide,
    show digitsToNat ['5'] = 5 from by decide]
  norm_num

theorem parse_aum_10B : parse_aum (.str "$10B") = some 10000000000 := by
  rw [parse_aum_str _ (by decide),
    show cleanChars "$10B".data = ['1', '0', 'B'] from by decide]
  simp [aumFromClean, pyFloatChars,
    show (['1', '0', 'B'].map Char.toUpper).getLast? = some 'B' from by decide,
    show List.dropLast ['1', '0', 'B'] = ['1', '0'] from by decide,
    show List.splitOn '.' ['1', '0'] = [['1', '0']] from by decide,
    show digitsToNat ['1', '0'] = 10 from by decide]
  norm_num

/-- C1 (amended): with either expense ratio null the comparison fields are
all null; otherwise `difference = |e1 − e2|` rounded to 4 decimals,
`savings_basis_points = difference × 100` rounded to 2 decimals, and
`cheaper_etf` is the symbol of the strictly lower ratio, an exact tie
yielding etf2's symbol (the code returns etf1 only on strict `<`). -/
theorem claim1_expense_ratio_comparison (e1 e2 : ETFData) :
    (e1.expense_ratio = none ∨ e2.expense_ratio = none →
      (compare_expense_ratios e1 e2).difference = none ∧
      (compare_expense_ratios e1 e2).cheaper_etf = none ∧
      (compare_expense_ratios e1 e2).savings_basis_points = none) ∧
    (∀ x y : ℚ, e1.expense_ratio = some x → e2.expense_ratio = some y →
      (compare_expense_ratios e1 e2).difference = some (roundTo 4 |x - y|) ∧
      (compare_expense_ratios e1 e2).cheaper_etf =
        (if x < y then e1.symbol else e2.symbol) ∧
      (x = y → (compare_expense_ratios e1 e2).cheaper_etf = e2.symbol) ∧
      (compare_expense_ratios e1 e2).savings_basis_points =
        some (roundTo 2 (roundTo 4 |x - y| * 100))) := by
  constructor
  · intro h
    cases hx : e1.expense_ratio with
    | none => cases hy : e2.expense_ratio <;> simp [compare_expense_ratios, hx, hy]
    | some x =>
        cases hy : e2.expense_ratio with
        | none => simp [compare_expense_ratios, hx, hy]
        | some y => rw [hx, hy] at h; simp at h
  · intro x y hx hy
    refine ⟨?_, ?_, ?_, ?_⟩ <;>
      simp [compare_expense_ratios, hx, hy, roundTo_double]
    intro hxy
    simp [hxy]

/-- C1 counterexample: with equal ratios (both 5%) the code returns etf2's
symbol, not etf1's as the claim's tie rule states. -/
theorem claim1_tie_counterexample :
    (compare_expense_ratios tieE1 tieE2).cheaper_etf = tieE2.symbol ∧
    (compare_expense_ratios tieE1 tieE2).cheaper_etf ≠ tieE1.symbol := by
  have h : (compare_expense_ratios tieE1 tieE2).cheaper_etf = some "B" := by
    norm_num [compare_expense_ratios, tieE1, tieE2]
  refine ⟨by rw [h]; rfl, by rw [h]; simp [tieE1]⟩

/-- C1 witness: the spec's worked example, ratios 0.03 and 0.07. -/
theorem claim1_witness :
    (compare_expense_ratios exE1 exE2).difference = some (1/25) ∧
    (compare_expense_ratios exE1 exE2).cheaper_etf = some "A" ∧
    (compare_expense_ratios exE1 exE2).savings_basis_points = some 4 := by
  obtain ⟨hd, hc, -, hs⟩ :=
    (claim1_expense_ratio_comparison exE1 exE2).2 (3/100) (7/100) rfl rfl
  have habs : |(3 : ℚ)/100 - 7/100| = 1/25 := by
    rw [abs_of_nonpos (by norm_num)]
    norm_num
  refine ⟨?_, ?_, ?_⟩
  · rw [hd, habs]
    norm_num [roundTo, round_eq]
  · rw [hc, if_pos (by norm_num)]
    rfl
  · rw [hs, habs]
    norm_num [roundTo, round_eq]

/-- C2: the spec promises no exception ever escapes the comparison engine,
but when an `aum` field parses to 0 the division `max/min` in `compare_aum`
raises `ZeroDivisionError`, which propagates out of
`generate_comparison_summary`; this evaluates the code at such an input. -/
theorem claim2_zero_aum_raises :
    generate_comparison_summary zeroAumEtf okAumEtf = .error () ∧
    compare_aum zeroAumEtf okAumEtf = .error () := by
  have h : compare_aum zeroAumEtf okAumEtf = .error () := by
    have h0 : parse_aum zeroAumEtf.aum = some 0 := rfl
    have h5 : parse_aum okAumEtf.aum = some 5000000000 := parse_aum_5B
    simp [compare_aum, h0, h5, min_eq_left (by norm_num : (0:ℚ) ≤ 5000000000)]
  exact ⟨by simp [generate_comparison_summary, h], h⟩

/-- C10: `_safe_float` maps every falsy value, in particular the number 0,
to null, and an ETF record whose expense ratio was normalized from the raw
value 0 therefore makes `compare_expense_ratios` return all-null fields. -/
theorem claim10_safe_float_zero :
    (∀ v : RawValue, truthy v = false → safe_float v = none) ∧
    safe_float (.num 0) = none ∧
    (∀ e1 e2 : ETFData, e1.expense_ratio = safe_float (.num 0) →
      (compare_expense_ratios e1 e2).difference = none ∧
      (compare_expense_ratios e1 e2).cheaper_etf = none ∧
      (compare_expense_ratios e1 e2).savings_basis_points = none) := by
  have hz : safe_float (.num 0) = none := by simp [safe_float, truthy]
  refine ⟨fun v h => by simp [safe_float, h], hz, fun e1 e2 h => ?_⟩
  rw [hz] at h
  cases h2 : e2.expense_ratio <;> simp [compare_expense_ratios, h, h2]

/-- C10 witness: a concrete fund whose raw expense ratio is exactly 0. -/
theorem claim10_witness :
    safe_float (.num 0) = none ∧
    (compare_expense_ratios
      ⟨some "Z", safe_float (.num 0), .null, [], []⟩
      ⟨some "W", some (3/100), .null, [], []⟩).cheaper_etf = none := by
  refine ⟨claim10_safe_float_zero.1 (.num 0) (by simp [truthy]), ?_⟩
  exact (claim10_safe_float_zero.2.2
    ⟨some "Z", safe_float (.num 0), .null, [], []⟩
    ⟨some "W", some (3/100), .null, [], []⟩ rfl).2.1

/-- C3 (amended): a failed parse on either side yields all-null comparison
fields; when both sides parse and the smaller value is nonzero (the zero case
raises, see the AUM-zero exception), `larger_etf` is the symbol of the
strictly greater AUM — an exact tie yielding etf2's symbol — and
`size_ratio = max/min` rounded to 2 decimals. -/
theorem claim3_aum_comparison (e1 e2 : ETFData) :
    (parse_aum e1.aum = none ∨ parse_aum e2.aum = none →
      compare_aum e1 e2 = .ok
        { etf1_aum := e1.aum, etf2_aum := e2.aum, etf1_aum_numeric := none,
          etf2_aum_numeric := none, larger_etf := none, size_ratio := none }) ∧
    (∀ x y : ℚ, parse_aum e1.aum = some x → parse_aum e2.aum = some y →
      min x y ≠ 0 →
      compare_aum e1 e2 = .ok
        { etf1_aum := e1.aum, etf2_aum := e2.aum,
          etf1_aum_numeric := some x, etf2_aum_numeric := some y,
          larger_etf := if y < x then e1.symbol else e2.symbol,
          size_ratio := some (roundTo 2 (max x y / min x y)) } ∧
      (x = y → aumLarger (compare_aum e1 e2) = some e2.symbol)) := by
  constructor
  · intro h
    cases hx : parse_aum e1.aum with
    | none => cases hy : parse_aum e2.aum <;> simp [compare_aum, hx, hy]
    | some x =>
        cases hy : parse_aum e2.aum with
        | none => simp [compare_aum, hx, hy]
        | some y => rw [hx, hy] at h; simp at h
  · intro x y hx hy hmin
    have hc : compare_aum e1 e2 = .ok
        { etf1_aum := e1.aum, etf2_aum := e2.aum,
          etf1_aum_numeric := some x, etf2_aum_numeric := some y,
          larger_etf := if y < x then e1.symbol else e2.symbol,
          size_ratio := some (roundTo 2 (max x y / min x y)) } := by
      simp [compare_aum, hx, hy, hmin]
    refine ⟨hc, fun hxy => ?_⟩
    subst hxy
    rw [hc]
    simp [aumLarger]

/-- C3 counterexample: with equal AUM (`$5B` on both sides) the code
returns etf2's symbol, not etf1's as the claim's tie rule states. -/
theorem claim3_tie_counterexample :
    aumLarger (compare_aum aumTie1 aumTie2) = some aumTie2.symbol ∧
    aumLarger (compare_aum aumTie1 aumTie2) ≠ some aumTie1.symbol := by
  have h1 : parse_aum aumTie1.aum = some 5000000000 := parse_aum_5B
  have h2 : parse_aum aumTie2.aum = some 5000000000 := parse_aum_5B
  have hc : aumLarger (compare_aum aumTie1 aumTie2) = some (some "B") := by
    simp [compare_aum, aumTie1, aumTie2, parse_aum_5B, min_self, aumLarger,
      lt_irrefl, (by norm_num : ¬(5000000000:ℚ) = 0)]
  exact ⟨by rw [hc]; rfl, by rw [hc]; simp [aumTie1]⟩

/-- C3 witness: the spec's worked example, `$10B` versus `$5B`. -/
theorem claim3_witness :
    ∃ r, compare_aum aumBig okAumEtf = .ok r ∧
      r.larger_etf = some "A" ∧ r.size_ratio = some 2 := by
  obtain ⟨hc, -⟩ := (claim3_aum_comparison aumBig okAumEtf).2
    10000000000 5000000000 parse_aum_10B parse_aum_5B (by norm_num [min_def])
  refine ⟨_, hc, ?_, ?_⟩
  · rw [if_pos (by norm_num)]
    rfl
  · rw [show (max (10000000000:ℚ) 5000000000 / min (10000000000:ℚ) 5000000000)
        = 2 from by norm_num [max_def, min_def]]
    norm_num [roundTo, round_eq]

theorem tickerSet_nodup (hs : List Holding) : (tickerSet hs).Nodup :=
  List.nodup_dedup _

theorem tickerSet_ne_nil {hs : List Holding} (h : hs ≠ []) :
    tickerSet hs ≠ [] := by
  cases hs with
  | nil => exact absurd rfl h
  | cons a t =>
      exact List.ne_nil_of_mem (List.mem_dedup.mpr
        (List.mem_map_of_mem _ (List.mem_cons_self a t)))

theorem mem_interTickerSet {h1 h2 : List Holding} {t : Option String} :
    t ∈ interTickerSet h1 h2 ↔ t ∈ tickerSet h1 ∧ t ∈ tickerSet h2 := by
  simp [interTickerSet]

theorem findFirstByTicker_isSome {hs : List Holding} {t : String}
    (h : some t ∈ tickerSet hs) : ∃ a, findFirstByTicker hs t = some a := by
  rw [tickerSet, List.mem_dedup] at h
  obtain ⟨hh, hh1, hh2⟩ := List.mem_map.mp h
  have : (findFirstByTicker hs t).isSome := by
    unfold findFirstByTicker
    refine List.find?_isSome.mpr ⟨hh, hh1, ?_⟩
    simp [hh2]
  exact Option.isSome_iff_exists.mp this

theorem calculate_portfolio_overlap_zero {h1 h2 : List Holding}
    (h : h1 = [] ∨ h2 = [] ∨ hasTickerCol h1 = false ∨ hasTickerCol h2 = false) :
    calculate_portfolio_overlap h1 h2 = 0 := by
  rcases h with h | h | h | h
  · simp [calculate_portfolio_overlap, h]
  · simp [calculate_portfolio_overlap, h]
  · cases hb : (h1.isEmpty || h2.isEmpty) <;>
      simp [calculate_portfolio_overlap, hb, h]
  · cases hb : (h1.isEmpty || h2.isEmpty) <;>
      simp [calculate_portfolio_overlap, hb, h]

theorem unionSets_cons (a : Option String) (t l2 : List (Option String)) :
    unionSets (a :: t) l2 =
      if a ∈ unionSets t l2 then unionSets t l2 else a :: unionSets t l2 := rfl

theorem mem_unionSets {l1 l2 : List (Option String)} {x : Option String} :
    x ∈ unionSets l1 l2 ↔ x ∈ l1 ∨ x ∈ l2 := by
  induction l1 with
  | nil => simp [unionSets]
  | cons a t ih =>
      rw [unionSets_cons]
      by_cases h : a ∈ unionSets t l2
      · rw [if_pos h, ih]
        simp only [List.mem_cons]
        constructor
        · rintro (hx | hx)
          · exact Or.inl (Or.inr hx)
          · exact Or.inr hx
        · rintro ((rfl | hx) | hx)
          · exact ih.mp h
          · exact Or.inl hx
          · exact Or.inr hx
      · rw [if_neg h]
        simp only [List.mem_cons, ih]
        tauto

theorem nodup_unionSets {l1 l2 : List (Option String)} (h : l2.Nodup) :
    (unionSets l1 l2).Nodup := by
  induction l1 with
  | nil => exact h
  | cons a t ih =>
      rw [unionSets_cons]
      by_cases hm : a ∈ unionSets t l2
      · rw [if_pos hm]
        exact ih
      · rw [if_neg hm]
        exact List.nodup_cons.mpr ⟨hm, ih⟩

theorem calculate_portfolio_overlap_main {h1 h2 : List Holding}
    (e1 : h1 ≠ []) (e2 : h2 ≠ []) (c1 : hasTickerCol h1 = true)
    (c2 : hasTickerCol h2 = true) :
    calculate_portfolio_overlap h1 h2 =
      roundTo 2 (((interTickerSet h1 h2).length : ℚ) /
        ((unionSets (tickerSet h1) (tickerSet h2)).length : ℚ) * 100) := by
  have hu : unionSets (tickerSet h1) (tickerSet h2) ≠ [] := by
    obtain ⟨x, hx⟩ := List.exists_mem_of_ne_nil _ (tickerSet_ne_nil e1)
    exact List.ne_nil_of_mem (mem_unionSets.mpr (Or.inl hx))
  have b1 : (h1.isEmpty || h2.isEmpty) = false := by
    simp [List.isEmpty_iff, e1, e2]
  have b3 : ((unionSets (tickerSet h1) (tickerSet h2)).isEmpty) = false := by
    simp [List.isEmpty_iff, hu]
  simp [calculate_portfolio_overlap, b1, b3, c1, c2, interTickerSet]

theorem interTickerSet_length_le (h1 h2 : List Holding) :
    (interTickerSet h1 h2).length ≤
      (unionSets (tickerSet h1) (tickerSet h2)).length := by
  refine (((tickerSet_nodup h1).filter _).subperm ?_).length_le
  intro x hx
  exact mem_unionSets.mpr (Or.inl (List.mem_of_mem_filter hx))

/-- C6 (amended): the portfolio overlap is `|∩| / |∪| × 100` over the sets
`set(df['ticker'].str.upper())`, which contain a NaN element for every side
holding a missing-ticker row (so NaN counts toward the union and, when on
both sides, the intersection); rounded to 2 decimals, always within
`[0, 100]`, and `0` (not an error) when either holdings list is empty or
lacks a ticker column. -/
theorem claim6_portfolio_overlap (h1 h2 : List Holding) :
    (0 ≤ calculate_portfolio_overlap h1 h2 ∧
      calculate_portfolio_overlap h1 h2 ≤ 100) ∧
    (h1 = [] ∨ h2 = [] ∨ hasTickerCol h1 = false ∨ hasTickerCol h2 = false →
      calculate_portfolio_overlap h1 h2 = 0) ∧
    (h1 ≠ [] → h2 ≠ [] → hasTickerCol h1 = true → hasTickerCol h2 = true →
      calculate_portfolio_overlap h1 h2 =
        roundTo 2 (((interTickerSet h1 h2).length : ℚ) /
          ((unionSets (tickerSet h1) (tickerSet h2)).length : ℚ) * 100)) := by
  refine ⟨?_, calculate_portfolio_overlap_zero,
    fun e1 e2 c1 c2 => calculate_portfolio_overlap_main e1 e2 c1 c2⟩
  by_cases hm : h1 ≠ [] ∧ h2 ≠ [] ∧ hasTickerCol h1 = true ∧ hasTickerCol h2 = true
  · obtain ⟨e1, e2, c1, c2⟩ := hm
    rw [calculate_portfolio_overlap_main e1 e2 c1 c2]
    have hu : unionSets (tickerSet h1) (tickerSet h2) ≠ [] := by
      obtain ⟨x, hx⟩ := List.exists_mem_of_ne_nil _ (tickerSet_ne_nil e1)
      exact List.ne_nil_of_mem (mem_unionSets.mpr (Or.inl hx))
    have hu0 : (0:ℚ) < ((unionSets (tickerSet h1) (tickerSet h2)).length : ℚ) := by
      exact_mod_cast List.length_pos.mpr hu
    have hle : ((interTickerSet h1 h2).length : ℚ) ≤
        ((unionSets (tickerSet h1) (tickerSet h2)).length : ℚ) := by
      exact_mod_cast interTickerSet_length_le h1 h2
    have hq0 : (0:ℚ) ≤ ((interTickerSet h1 h2).length : ℚ) /
        ((unionSets (tickerSet h1) (tickerSet h2)).length : ℚ) * 100 := by
      positivity
    have hq1 : ((interTickerSet h1 h2).length : ℚ) /
        ((unionSets (tickerSet h1) (tickerSet h2)).length : ℚ) * 100 ≤ 100 := by
      have hd := (div_le_one hu0).mpr hle
      nlinarith
    constructor
    · calc (0:ℚ) = roundTo 2 0 := by simpa using (roundTo_intCast 2 0).symm
        _ ≤ _ := roundTo_mono hq0
    · calc roundTo 2 _ ≤ roundTo 2 100 := roundTo_mono hq1
        _ = 100 := by simpa using roundTo_intCast 2 100
  · have h : h1 = [] ∨ h2 = [] ∨ hasTickerCol h1 = false ∨ hasTickerCol h2 = false := by
      by_contra hc
      push_neg at hc
      obtain ⟨a1, a2, a3, a4⟩ := hc
      refine hm ⟨a1, a2, ?_, ?_⟩
      · cases hb : hasTickerCol h1
        · exact absurd hb a3
        · rfl
      · cases hb : hasTickerCol h2
        · exact absurd hb a4
        · rfl
    rw [calculate_portfolio_overlap_zero h]
    norm_num

/-- C6 counterexample: for `[AAPL, missing-ticker]` against `[AAPL]` the
code returns 50.0 — the NaN contributed by the missing-ticker row counts in
the union — while the claim's formula over the genuine ticker sets
(`{AAPL}` on both sides) predicts 100.0. -/
theorem claim6_counterexample :
    calculate_portfolio_overlap exNan1 exNan2 = 50 ∧
    ((realTickers exNan1).filter (fun t => decide (t ∈ realTickers exNan2))).length = 1 ∧
    (realTickers exNan1 ∪ realTickers exNan2).length = 1 ∧
    roundTo 2 ((1 : ℚ) / 1 * 100) = 100 ∧ (50 : ℚ) ≠ 100 := by
  have h1 : (interTickerSet exNan1 exNan2).length = 1 := by decide
  have h2 : (unionSets (tickerSet exNan1) (tickerSet exNan2)).length = 2 := by
    decide
  have hmain := @calculate_portfolio_overlap_main exNan1 exNan2
    (by decide) (by decide) rfl rfl
  rw [h1, h2] at hmain
  refine ⟨?_, by decide, by decide, ?_, by norm_num⟩
  · rw [hmain]
    push_cast
    norm_num [roundTo, round_eq]
  · norm_num [roundTo, round_eq]

/-- C5 (amended): on the sets `set(df['ticker'].str.upper())` — where a
missing-ticker row contributes a NaN element — the function returns the
empty list when either side is empty or lacks the ticker column; it raises
`IndexError` (modelled `Except.error`) when both sides contain a
missing-ticker row, because NaN then enters the intersection and the
`.iloc[0]` selection is empty; otherwise it returns exactly one entry per
genuine ticker of the case-insensitive intersection, each built from the
first-occurring holding on each side through the column-aware `Series.get`
(the 0 default applies only when the whole weight column is absent, a
row-level hole being NaN that propagates to `weight_difference`), the list
sorted by descending weight difference (NaN keys canonicalized last). -/
theorem claim5_overlapping_holdings (h1 h2 : List Holding) :
    (h1 = [] ∨ h2 = [] ∨ hasTickerCol h1 = false ∨ hasTickerCol h2 = false →
      find_overlapping_holdings h1 h2 = .ok []) ∧
    (hasTickerCol h1 = true → hasTickerCol h2 = true →
      none ∈ tickerSet h1 → none ∈ tickerSet h2 →
      find_overlapping_holdings h1 h2 = .error ()) ∧
    (¬ none ∈ interTickerSet h1 h2 → ∃ l,
      find_overlapping_holdings h1 h2 = .ok l ∧
      l.length = ((interTickerSet h1 h2).filterMap id).length ∧
      l.Perm (((interTickerSet h1 h2).filterMap id).map (mkOverlap h1 h2)) ∧
      List.Sorted wdGE l ∧
      (∀ e ∈ l, ∃ a b : Holding,
        findFirstByTicker h1 e.ticker = some a ∧
        findFirstByTicker h2 e.ticker = some b ∧
        e.weight_etf1 = seriesGetQ (hasWeightCol h1) a.weight 0 ∧
        e.weight_etf2 = seriesGetQ (hasWeightCol h2) b.weight 0 ∧
        e.weight_difference = nanAbsSub e.weight_etf1 e.weight_etf2)) := by
  refine ⟨?_, ?_, ?_⟩
  · intro h
    rcases h with h | h | h | h
    · simp [find_overlapping_holdings, h]
    · simp [find_overlapping_holdings, h]
    · cases hb : (h1.isEmpty || h2.isEmpty) <;>
        simp [find_overlapping_holdings, hb, h]
    · cases hb : (h1.isEmpty || h2.isEmpty) <;>
        simp [find_overlapping_holdings, hb, h]
  · intro c1 c2 m1 m2
    have hin : none ∈ interTickerSet h1 h2 := mem_interTickerSet.mpr ⟨m1, m2⟩
    have e1 : h1 ≠ [] := by
      rintro rfl
      simp [tickerSet] at m1
    have e2 : h2 ≠ [] := by
      rintro rfl
      simp [tickerSet] at m2
    have b1 : (h1.isEmpty || h2.isEmpty) = false := by
      simp [List.isEmpty_iff, e1, e2]
    have b3 : (interTickerSet h1 h2).isEmpty = false := by
      simp [List.isEmpty_iff, List.ne_nil_of_mem hin]
    simp [find_overlapping_holdings, b1, b3, c1, c2, hin]
  · intro hn
    unfold find_overlapping_holdings
    split_ifs with g1 g2 g3
    · have hi : interTickerSet h1 h2 = [] := by
        rcases Bool.or_eq_true_iff.mp g1 with h | h <;>
          rw [List.isEmpty_iff] at h
        · simp [interTickerSet, tickerSet, h]
        · simp [interTickerSet, tickerSet, h]
      exact ⟨[], rfl, by simp [hi], by simp [hi], by simp, by simp⟩
    · have hall : ∀ x ∈ interTickerSet h1 h2, x = none := by
        intro x hx
        rcases Bool.or_eq_true_iff.mp g2 with h | h <;>
          rw [Bool.not_eq_true'] at h
        · have hx1 := (mem_interTickerSet.mp hx).1
          rw [tickerSet, List.mem_dedup] at hx1
          obtain ⟨hh, hh1, hh2⟩ := List.mem_map.mp hx1
          have hnone := (List.any_eq_false.mp h) hh hh1
          have ht : hh.ticker = none :=
            Option.not_isSome_iff_eq_none.mp (by simpa using hnone)
          rw [ht] at hh2
          exact hh2.symm
        · have hx2 := (mem_interTickerSet.mp hx).2
          rw [tickerSet, List.mem_dedup] at hx2
          obtain ⟨hh, hh1, hh2⟩ := List.mem_map.mp hx2
          have hnone := (List.any_eq_false.mp h) hh hh1
          have ht : hh.ticker = none :=
            Option.not_isSome_iff_eq_none.mp (by simpa using hnone)
          rw [ht] at hh2
          exact hh2.symm
      have hreal : (interTickerSet h1 h2).filterMap id = [] :=
        List.filterMap_eq_nil_iff.mpr (fun a ha => by rw [hall a ha]; rfl)
      exact ⟨[], rfl, by simp [hreal], by simp [hreal], by simp, by simp⟩
    · have hi := List.isEmpty_iff.mp g3
      exact ⟨[], rfl, by simp [hi], by simp [hi], by simp, by simp⟩
    · have hperm := List.perm_insertionSort wdGE
        (((interTickerSet h1 h2).filterMap id).map (mkOverlap h1 h2))
      refine ⟨_, rfl, by rw [hperm.length_eq, List.length_map], hperm,
        List.sorted_insertionSort wdGE _, ?_⟩
      intro e he
      have he2 : e ∈ ((interTickerSet h1 h2).filterMap id).map (mkOverlap h1 h2) :=
        hperm.mem_iff.mp he
      obtain ⟨t, ht, rfl⟩ := List.mem_map.mp he2
      obtain ⟨ot, hot, hid⟩ := List.mem_filterMap.mp ht
      rw [show ot = some t from hid] at hot
      obtain ⟨ht1, ht2⟩ := mem_interTickerSet.mp hot
      obtain ⟨a, ha⟩ := findFirstByTicker_isSome ht1
      obtain ⟨b, hb⟩ := findFirstByTicker_isSome ht2
      have htk : (mkOverlap h1 h2 t).ticker = t := rfl
      refine ⟨a, b, by rw [htk]; exact ha, by rw [htk]; exact hb, ?_, ?_, ?_⟩
      · simp [mkOverlap, ha]
      · simp [mkOverlap, hb]
      · simp [mkOverlap, ha, hb]

/-- C5 counterexample: with a missing-ticker row on BOTH sides the NaN
element enters the ticker intersection and the code raises `IndexError`
instead of returning the claimed clean list; and when the weight column
exists, a row-level missing weight surfaces as NaN (`none`), not the
claimed 0 default. -/
theorem claim5_counterexample :
    find_overlapping_holdings exMixed1 exMixed2 = .error () ∧
    find_overlapping_holdings exNanW1 exNanW2 =
      .ok [{ ticker := "AAPL", company_name := some "N/A",
             sector := some "N/A", weight_etf1 := none,
             weight_etf2 := some 5, weight_difference := none }] ∧
    (none : Option ℚ) ≠ some 0 := by
  refine ⟨?_, ?_, by decide⟩
  · unfold find_overlapping_holdings
    rw [if_neg (by decide), if_neg (by decide), if_neg (by decide),
      if_pos (by decide)]
  · unfold find_overlapping_holdings
    rw [if_neg (by decide), if_neg (by decide), if_neg (by decide),
      if_neg (by decide),
      show (interTickerSet exNanW1 exNanW2).filterMap id = ["AAPL"]
        from by decide, List.map_cons, List.map_nil]
    rw [show mkOverlap exNanW1 exNanW2 "AAPL" =
        { ticker := "AAPL", company_name := some "N/A",
          sector := some "N/A", weight_etf1 := none,
          weight_etf2 := some 5, weight_difference := none } from by decide]
    rfl

/-- C5 witness: the spec's worked example (clean rows, every column
present), `[AAPL 7, MSFT 6]` versus `[AAPL 5, GOOG 4]`, yields the single
sorted entry `(AAPL, 7, 5, 2)`. -/
theorem claim5_witness :
    ∃ l, find_overlapping_holdings exH1 exH2 = .ok l ∧
      l = [{ ticker := "AAPL", company_name := some "N/A",
             sector := some "N/A", weight_etf1 := some 7,
             weight_etf2 := some 5, weight_difference := some 2 }] ∧
      List.Sorted wdGE l := by
  obtain ⟨l, hl, -, hperm, hsort, -⟩ :=
    (claim5_overlapping_holdings exH1 exH2).2.2 (by decide)
  refine ⟨l, hl, ?_, hsort⟩
  rw [show (interTickerSet exH1 exH2).filterMap id = ["AAPL"] from by decide]
    at hperm
  rw [List.map_cons, List.map_nil, List.perm_singleton] at hperm
  rw [hperm]
  have hfa : findFirstByTicker exH1 "AAPL" =
      some ⟨some "AAPL", none, none, some 7⟩ := by decide
  have hfb : findFirstByTicker exH2 "AAPL" =
      some ⟨some "AAPL", none, none, some 5⟩ := by decide
  rw [show mkOverlap exH1 exH2 "AAPL" =
      { ticker := "AAPL", company_name := some "N/A",
        sector := some "N/A", weight_etf1 := some 7,
        weight_etf2 := some 5, weight_difference := some |(7:ℚ) - 5| } from by
    simp [mkOverlap, hfa, hfb, seriesGetQ, seriesGetS, nanAbsSub,
      show hasWeightCol exH1 = true from rfl,
      show hasWeightCol exH2 = true from rfl,
      show hasCompanyCol exH1 = false from rfl,
      show hasCompanyCol exH2 = false from rfl,
      show hasSectorCol exH1 = false from rfl,
      show hasSectorCol exH2 = false from rfl]]
  norm_num

/-- C6 witness: the spec's worked example (no missing tickers), overlap
`1/3 × 100 = 33.33`. -/
theorem claim6_witness :
    calculate_portfolio_overlap exH1 exH2 = 3333/100 ∧
    0 ≤ calculate_portfolio_overlap exH1 exH2 ∧
    calculate_portfolio_overlap exH1 exH2 ≤ 100 := by
  have h := (claim6_portfolio_overlap exH1 exH2).2.2
    (by decide) (by decide) rfl rfl
  rw [show (interTickerSet exH1 exH2).length = 1 from by decide,
    show (unionSets (tickerSet exH1) (tickerSet exH2)).length = 3
      from by decide] at h
  refine ⟨?_, (claim6_portfolio_overlap exH1 exH2).1.1,
    (claim6_portfolio_overlap exH1 exH2).1.2⟩
  rw [h]
  push_cast
  norm_num [roundTo, round_eq]

theorem sectorKeys_ne_nil {s1 s2 : List (String × ℚ)} (h : ¬(s1 = [] ∧ s2 = [])) :
    sectorKeys s1 s2 ≠ [] := by
  unfold sectorKeys
  rcases not_and_or.mp h with h | h <;>
    obtain ⟨p, hp⟩ := List.exists_mem_of_ne_nil _ h
  · exact List.ne_nil_of_mem (List.mem_dedup.mpr
      (List.mem_append_left _ (List.mem_map_of_mem _ hp)))
  · exact List.ne_nil_of_mem (List.mem_dedup.mpr
      (List.mem_append_right _ (List.mem_map_of_mem _ hp)))

/-- C7 (amended): over the union of the key sets each side's weight defaults
to 0 when absent, `difference = |w1 − w2|`, and `relative_difference` is
`difference / max(w1, w2, 1) × 100` when `max(w1, w2) > 0` and `0` otherwise
(the two agree whenever weights are nonnegative);
`similarity_score = max(0, 100 − average difference)` rounded to 2 decimals;
the result is empty when both inputs are empty; and for every NONEMPTY
sector map `s`, comparing `s` with itself scores exactly 100. -/
theorem claim7_sector_allocations :
    compare_sector_allocations [] [] = none ∧
    (∀ s1 s2 : List (String × ℚ), ¬(s1 = [] ∧ s2 = []) → ∃ r,
      compare_sector_allocations s1 s2 = some r ∧
      r.similarity_score = roundTo 2 (max 0
        (100 - totalSectorDiff s1 s2 / ((sectorKeys s1 s2).length : ℚ))) ∧
      r.total_sectors = (sectorKeys s1 s2).length ∧
      (∀ k ∈ sectorKeys s1 s2,
        (k, sectorEntry s1 s2 k) ∈ r.sector_comparison ∧
        (sectorEntry s1 s2 k).etf1_weight = weightOf s1 k ∧
        (sectorEntry s1 s2 k).etf2_weight = weightOf s2 k ∧
        (sectorEntry s1 s2 k).difference = |weightOf s1 k - weightOf s2 k| ∧
        (sectorEntry s1 s2 k).relative_difference =
          (if 0 < max (weightOf s1 k) (weightOf s2 k) then
            |weightOf s1 k - weightOf s2 k| /
              max (max (weightOf s1 k) (weightOf s2 k)) 1 * 100
          else 0))) ∧
    (∀ s : List (String × ℚ), s ≠ [] →
      (compare_sector_allocations s s).map SectorResult.similarity_score =
        some 100) := by
  have main : ∀ s1 s2 : List (String × ℚ), ¬(s1 = [] ∧ s2 = []) → ∃ r,
      compare_sector_allocations s1 s2 = some r ∧
      r.similarity_score = roundTo 2 (max 0
        (100 - totalSectorDiff s1 s2 / ((sectorKeys s1 s2).length : ℚ))) ∧
      r.total_sectors = (sectorKeys s1 s2).length ∧
      (∀ k ∈ sectorKeys s1 s2,
        (k, sectorEntry s1 s2 k) ∈ r.sector_comparison ∧
        (sectorEntry s1 s2 k).etf1_weight = weightOf s1 k ∧
        (sectorEntry s1 s2 k).etf2_weight = weightOf s2 k ∧
        (sectorEntry s1 s2 k).difference = |weightOf s1 k - weightOf s2 k| ∧
        (sectorEntry s1 s2 k).relative_difference =
          (if 0 < max (weightOf s1 k) (weightOf s2 k) then
            |weightOf s1 k - weightOf s2 k| /
              max (max (weightOf s1 k) (weightOf s2 k)) 1 * 100
          else 0)) := by
    intro s1 s2 h
    have hb : (s1.isEmpty && s2.isEmpty) = false := by
      rcases not_and_or.mp h with h | h <;> simp [List.isEmpty_iff, h]
    have hkb : (sectorKeys s1 s2).isEmpty = false := by
      simp [List.isEmpty_iff, sectorKeys_ne_nil h]
    refine ⟨⟨(sectorKeys s1 s2).map (fun k => (k, sectorEntry s1 s2 k)),
      roundTo 2 (max 0
        (100 - totalSectorDiff s1 s2 / ((sectorKeys s1 s2).length : ℚ))),
      (sectorKeys s1 s2).length,
      ((s1.map Prod.fst).dedup.filter
        (fun k => decide (k ∈ s2.map Prod.fst))).length⟩, ?_, rfl, rfl, ?_⟩
    · simp only [compare_sector_allocations, hb, Bool.false_eq_true,
        if_false, hkb]
    · intro k hk
      exact ⟨List.mem_map_of_mem _ hk, rfl, rfl, rfl, rfl⟩
  refine ⟨rfl, main, ?_⟩
  intro s hs
  obtain ⟨r, hr, hsim, -, -⟩ := main s s (fun hp => hs hp.1)
  rw [hr, Option.map_some', hsim]
  have hz : totalSectorDiff s s = 0 := by
    refine List.sum_eq_zero ?_
    intro x hx
    obtain ⟨k, -, rfl⟩ := List.mem_map.mp hx
    simp
  rw [hz, zero_div, sub_zero, max_eq_right (by norm_num : (0:ℚ) ≤ 100)]
  simpa using roundTo_intCast 2 100

/-- C7 counterexample: with both maps empty the result is the empty dict, so
comparing the empty map with itself does NOT yield similarity 100 (the claim
quantifies over every sector map); moreover for negative weights (both ≤ 0,
unequal) the code's relative_difference is 0 while the claim's unconditional
formula gives 100. -/
theorem claim7_counterexample :
    (compare_sector_allocations [] []).map SectorResult.similarity_score ≠
      some 100 ∧
    (sectorEntry [("A", -2)] [("A", -1)] "A").relative_difference = 0 ∧
    |weightOf [("A", -2)] "A" - weightOf [("A", -1)] "A"| /
      max (max (weightOf [("A", -2)] "A") (weightOf [("A", -1)] "A")) 1 * 100
      = 100 := by
  have ha : weightOf [("A", -2)] "A" = -2 := by simp [weightOf]
  have hb : weightOf [("A", -1)] "A" = -1 := by simp [weightOf]
  refine ⟨by simp [compare_sector_allocations], ?_, ?_⟩
  · rw [show (sectorEntry [("A", -2)] [("A", -1)] "A").relative_difference =
        (if 0 < max (weightOf [("A", -2)] "A") (weightOf [("A", -1)] "A") then
          |weightOf [("A", -2)] "A" - weightOf [("A", -1)] "A"| /
            max (max (weightOf [("A", -2)] "A") (weightOf [("A", -1)] "A")) 1 * 100
        else 0) from rfl, ha, hb]
    norm_num [max_def]
  · rw [ha, hb]
    norm_num [max_def]

/-- C7 witness: a nonempty sector map compared with itself scores 100. -/
theorem claim7_witness :
    (compare_sector_allocations exSectors exSectors).map
      SectorResult.similarity_score = some 100 ∧ exSectors ≠ [] :=
  ⟨claim7_sector_allocations.2.2 exSectors (by decide), by decide⟩

theorem parse_aum_150B : parse_aum (.str "$1.50B") = some 1500000000 := by
  rw [parse_aum_str _ (by decide),
    show cleanChars "$1.50B".data = ['1', '.', '5', '0', 'B'] from by decide]
  simp [aumFromClean, pyFloatChars,
    show (['1', '.', '5', '0', 'B'].map Char.toUpper).getLast? = some 'B'
      from by decide,
    show List.dropLast ['1', '.', '5', '0', 'B'] = ['1', '.', '5', '0']
      from by decide,
    show List.splitOn '.' ['1', '.', '5', '0'] = [['1'], ['5', '0']]
      from by decide,
    show digitsToNat ['1'] = 1 from by decide,
    show digitsToNat ['5', '0'] = 50 from by decide]
  norm_num

theorem parse_aum_750M : parse_aum (.str "750M") = some 750000000 := by
  rw [parse_aum_str _ (by decide),
    show cleanChars "750M".data = ['7', '5', '0', 'M'] from by decide]
  simp [aumFromClean, pyFloatChars,
    show (['7', '5', '0', 'M'].map Char.toUpper).getLast? = some 'M'
      from by decide,
    show (['7', '5', '0', 'M'].map Char.toUpper).getLast? ≠ some 'B'
      from by decide,
    show List.dropLast ['7', '5', '0', 'M'] = ['7', '5', '0'] from by decide,
    show List.splitOn '.' ['7', '5', '0'] = [['7', '5', '0']] from by decide,
    show digitsToNat ['7', '5', '0'] = 750 from by decide]
  norm_num

/-- C4: the magnitude parser maps null and `'N/A'` to null, passes numbers
through unchanged, strips the currency symbol (and commas/whitespace) from
strings, applies the case-insensitive trailing B/M/K multiplier to the
remaining text, returns null when the remaining text is not a float (no
exception escapes, the function being total with `Option` result), and
preserves negative magnitudes; `"$1.50B"` ↦ 1.5e9 and `"750M"` ↦ 7.5e8. -/
theorem claim4_parse_aum :
    parse_aum .null = none ∧
    parse_aum (.str "N/A") = none ∧
    (∀ q : ℚ, parse_aum (.num q) = some q) ∧
    (∀ s : String, s ≠ "N/A" →
      parse_aum (.str s) = aumFromClean (cleanChars s.data)) ∧
    (∀ s : String, parse_aum (.str ("$" ++ s)) = parse_aum (.str s)) ∧
    (∀ l : List Char, (l.map Char.toUpper).getLast? = some 'B' →
      aumFromClean l = (pyFloatChars l.dropLast).map (fun q => q * 1000000000)) ∧
    (∀ l : List Char, (l.map Char.toUpper).getLast? ≠ some 'B' →
      (l.map Char.toUpper).getLast? = some 'M' →
      aumFromClean l = (pyFloatChars l.dropLast).map (fun q => q * 1000000)) ∧
    (∀ l : List Char, (l.map Char.toUpper).getLast? ≠ some 'B' →
      (l.map Char.toUpper).getLast? ≠ some 'M' →
      (l.map Char.toUpper).getLast? = some 'K' →
      aumFromClean l = (pyFloatChars l.dropLast).map (fun q => q * 1000)) ∧
    (∀ l : List Char, (l.map Char.toUpper).getLast? ≠ some 'B' →
      (l.map Char.toUpper).getLast? ≠ some 'M' →
      (l.map Char.toUpper).getLast? ≠ some 'K' →
      aumFromClean l = pyFloatChars l) ∧
    parse_aum (.str "$1.50B") = some 1500000000 ∧
    parse_aum (.str "750M") = some 750000000 ∧
    parse_aum (.str "-2.5K") = some (-2500) ∧
    parse_aum (.str "1,500") = some 1500 ∧
    parse_aum (.str "abc") = none := by
  have hdollar : ∀ s : String, parse_aum (.str ("$" ++ s)) = parse_aum (.str s) := by
    intro s
    by_cases hs : s = "N/A"
    · subst hs
      decide
    · have h2 : ("$" ++ s) ≠ "N/A" := by
        intro hcontra
        have hd := String.ext_iff.mp hcontra
        rw [String.data_append] at hd
        simp at hd
      rw [parse_aum_str _ h2, parse_aum_str _ hs, String.data_append]
      rfl
  have hneg : parse_aum (.str "-2.5K") = some (-2500) := by
    rw [parse_aum_str _ (by decide),
      show cleanChars "-2.5K".data = ['-', '2', '.', '5', 'K'] from by decide]
    simp [aumFromClean, pyFloatChars,
      show (['-', '2', '.', '5', 'K'].map Char.toUpper).getLast? = some 'K'
        from by decide,
      show (['-', '2', '.', '5', 'K'].map Char.toUpper).getLast? ≠ some 'B'
        from by decide,
      show (['-', '2', '.', '5', 'K'].map Char.toUpper).getLast? ≠ some 'M'
        from by decide,
      show List.dropLast ['-', '2', '.', '5', 'K'] = ['-', '2', '.', '5']
        from by decide,
      show List.splitOn '.' ['2', '.', '5'] = [['2'], ['5']] from by decide,
      show digitsToNat ['2'] = 2 from by decide,
      show digitsToNat ['5'] = 5 from by decide]
    norm_num
  have hcomma : parse_aum (.str "1,500") = some 1500 := by
    rw [parse_aum_str _ (by decide),
      show cleanChars "1,500".data = ['1', '5', '0', '0'] from by decide]
    simp [aumFromClean, pyFloatChars,
      show (['1', '5', '0', '0'].map Char.toUpper).getLast? = some '0'
        from by decide,
      show List.splitOn '.' ['1', '5', '0', '0'] = [['1', '5', '0', '0']]
        from by decide,
      show digitsToNat ['1', '5', '0', '0'] = 1500 from by decide]
  refine ⟨rfl, rfl, fun q => rfl, parse_aum_str, hdollar,
    fun l h => by simp only [aumFromClean]; rw [if_pos h],
    fun l h1 h2 => by simp only [aumFromClean]; rw [if_neg h1, if_pos h2],
    fun l h1 h2 h3 => by
      simp only [aumFromClean]; rw [if_neg h1, if_neg h2, if_pos h3],
    fun l h1 h2 h3 => by
      simp only [aumFromClean]; rw [if_neg h1, if_neg h2, if_neg h3],
    parse_aum_150B, parse_aum_750M, hneg, hcomma, by decide⟩

/-- C4 witness: the currency-stripping clause applied at `"1.50B"`, and the
worked example evaluated. -/
theorem claim4_witness :
    parse_aum (.str ("$" ++ "1.50B")) = parse_aum (.str "1.50B") ∧
    parse_aum (.str "$1.50B") = some 1500000000 := by
  obtain ⟨-, -, -, -, hdollar, -, -, -, -, h150, -⟩ := claim4_parse_aum
  exact ⟨hdollar "1.50B", h150⟩

theorem fmt2_threehalves : fmt2 (3/2) = "1.50" := by
  simp [fmt2, show round ((3:ℚ)/2 * 100) = 150 from by norm_num [round_eq]]
  decide

theorem fmt2_750 : fmt2 (750) = "750.00" := by
  simp [fmt2, show round ((750:ℚ) * 100) = 75000 from by norm_num [round_eq]]
  decide

theorem fmt2_4275 : fmt2 (171/4) = "42.75" := by
  simp [fmt2, show round ((171:ℚ)/4 * 100) = 4275 from by norm_num [round_eq]]
  decide

theorem format_aum_150 : format_aum (.num 1500000000) = "$1.50B" := by
  simp only [format_aum, fmtScaled]
  rw [if_pos (by norm_num : (1000000000:ℚ) ≤ 1500000000),
    show (1500000000:ℚ)/1000000000 = 3/2 from by norm_num, fmt2_threehalves]
  decide

theorem format_aum_750 : format_aum (.num 750000000) = "$750.00M" := by
  simp only [format_aum, fmtScaled]
  rw [if_neg (by norm_num : ¬((1000000000:ℚ) ≤ 750000000)),
    if_pos (by norm_num : (1000000:ℚ) ≤ 750000000),
    show (750000000:ℚ)/1000000 = 750 from by norm_num, fmt2_750]
  decide

theorem format_aum_4275 : format_aum (.num (171/4)) = "$42.75" := by
  simp only [format_aum, fmtScaled]
  rw [if_neg (by norm_num : ¬((1000000000:ℚ) ≤ 171/4)),
    if_neg (by norm_num : ¬((1000000:ℚ) ≤ 171/4)),
    if_neg (by norm_num : ¬((1000:ℚ) ≤ 171/4)), fmt2_4275]
  decide

theorem parse_aum_4275 : parse_aum (.str "$42.75") = some (171/4) := by
  rw [parse_aum_str _ (by decide),
    show cleanChars "$42.75".data = ['4', '2', '.', '7', '5'] from by decide]
  simp [aumFromClean, pyFloatChars,
    show (['4', '2', '.', '7', '5'].map Char.toUpper).getLast? = some '5'
      from by decide,
    show List.splitOn '.' ['4', '2', '.', '7', '5'] = [['4', '2'], ['7', '5']]
      from by decide,
    show digitsToNat ['4', '2'] = 42 from by decide,
    show digitsToNat ['7', '5'] = 75 from by decide]
  norm_num

theorem parse_aum_750_00M : parse_aum (.str "$750.00M") = some 750000000 := by
  rw [parse_aum_str _ (by decide),
    show cleanChars "$750.00M".data = ['7', '5', '0', '.', '0', '0', 'M']
      from by decide]
  simp [aumFromClean, pyFloatChars,
    show (['7', '5', '0', '.', '0', '0', 'M'].map Char.toUpper).getLast? =
      some 'M' from by decide,
    show (['7', '5', '0', '.', '0', '0', 'M'].map Char.toUpper).getLast? ≠
      some 'B' from by decide,
    show List.dropLast ['7', '5', '0', '.', '0', '0', 'M'] =
      ['7', '5', '0', '.', '0', '0'] from by decide,
    show List.splitOn '.' ['7', '5', '0', '.', '0', '0'] =
      [['7', '5', '0'], ['0', '0']] from by decide,
    show digitsToNat ['7', '5', '0'] = 750 from by decide,
    show digitsToNat ['0', '0'] = 0 from by decide]
  norm_num

/-- C8: `_format_aum` renders a numeric total with the inverse of the
parser's scale rule (≥1e9 → `$X.XXB`, ≥1e6 → `$X.XXM`, ≥1e3 → `$X.XXK`,
else `$X.XX`), and on representative magnitude strings the round trip
`format(parse(x))` reproduces `x` (exactly for `"$1.50B"` and `"$42.75"`,
and up to re-parsing to the same numeric value for `"750M"`). -/
theorem claim8_format_aum :
    (∀ q : ℚ, 1000000000 ≤ q →
      format_aum (.num q) = "$" ++ fmt2 (q / 1000000000) ++ "B") ∧
    (∀ q : ℚ, ¬(1000000000 ≤ q) → 1000000 ≤ q →
      format_aum (.num q) = "$" ++ fmt2 (q / 1000000) ++ "M") ∧
    (∀ q : ℚ, ¬(1000000000 ≤ q) → ¬(1000000 ≤ q) → 1000 ≤ q →
      format_aum (.num q) = "$" ++ fmt2 (q / 1000) ++ "K") ∧
    (∀ q : ℚ, ¬(1000 ≤ q) → format_aum (.num q) = "$" ++ fmt2 q) ∧
    (parse_aum (.str "$1.50B")).map (fun v => format_aum (.num v)) =
      some "$1.50B" ∧
    (parse_aum (.str "$42.75")).map (fun v => format_aum (.num v)) =
      some "$42.75" ∧
    (parse_aum (.str "750M")).bind
      (fun v => parse_aum (.str (format_aum (.num v)))) =
      parse_aum (.str "750M") := by
  refine ⟨?_, ?_, ?_, ?_, ?_, ?_, ?_⟩
  · intro q h
    simp only [format_aum, fmtScaled]
    rw [if_pos h]
  · intro q h9 h6
    simp only [format_aum, fmtScaled]
    rw [if_neg h9, if_pos h6]
  · intro q h9 h6 h3
    simp only [format_aum, fmtScaled]
    rw [if_neg h9, if_neg h6, if_pos h3]
  · intro q h3
    have h9 : ¬((1000000000:ℚ) ≤ q) := fun hx => h3 (by linarith)
    have h6 : ¬((1000000:ℚ) ≤ q) := fun hx => h3 (by linarith)
    simp only [format_aum, fmtScaled]
    rw [if_neg h9, if_neg h6, if_neg h3]
  · rw [parse_aum_150B, Option.map_some', format_aum_150]
  · rw [parse_aum_4275, Option.map_some', format_aum_4275]
  · rw [parse_aum_750M, Option.some_bind, format_aum_750, parse_aum_750_00M]

/-- C8 witness: the billions threshold applied at 1.5e9, and the resulting
display string. -/
theorem claim8_witness :
    format_aum (.num 1500000000) =
      "$" ++ fmt2 ((1500000000:ℚ) / 1000000000) ++ "B" ∧
    (parse_aum (.str "$1.50B")).map (fun v => format_aum (.num v)) =
      some "$1.50B" :=
  ⟨claim8_format_aum.1 1500000000 (by norm_num), claim8_format_aum.2.2.2.2.1⟩

theorem foldl_max_pos (xs : List ℚ) : ∀ x : ℚ, 0 < x → (∀ y ∈ xs, 0 < y) →
    0 < xs.foldl max x := by
  induction xs with
  | nil => intro x hx _; simpa using hx
  | cons y ys ih =>
      intro x hx hall
      exact ih (max x y) (lt_max_of_lt_left hx)
        (fun z hz => hall z (List.mem_cons_of_mem _ hz))

theorem listMax_pos {l : List ℚ} (hne : l ≠ []) (h : ∀ x ∈ l, 0 < x) :
    0 < listMax l := by
  cases l with
  | nil => exact absurd rfl hne
  | cons x xs =>
      exact foldl_max_pos xs x (h x (List.mem_cons_self x xs))
        (fun y hy => h y (List.mem_cons_of_mem _ hy))

end EtfHub
